import Mathlib

/-!
Shallow embedding of `Step_1_save_road_network_geometry.py`.

The script iterates over city boundary polygons, downloads each city's road
network, reduces it to its largest connected component, saves the result as a
graphml file, and appends one row per processed city to a CSV log that is read
back at startup to resume interrupted runs.

Calls into external libraries (the shapefile reader, the OSMnx download, the
shapely `simplify`) are modelled as oracle parameters.  Everything the script
itself computes — the helper functions `get_city_polygon` and
`largest_connected_component`, the resume skip-set, the main loop with its
try/except failure boundary and CSV append — is translated directly from the
source.  Machine floats (areas, the simplification tolerance) are modelled as
rationals.
-/

/-- Python's `max(xs, key=key)`: the first element attaining the maximal key.
On an empty list CPython raises `ValueError`; that failure is the `none`
case. -/
def pyMax {α β : Type} (key : α → β) [LinearOrder β] : List α → Option α
  | [] => none
  | x :: xs => some (xs.foldl (fun best q => if key best < key q then q else best) x)

/-- An undirected multigraph as the script sees it after `G.to_undirected()`:
a node list and an edge list; an edge `(a, b)` connects `a` and `b` in both
directions. -/
structure Graph where
  nodes : List Nat
  edges : List (Nat × Nat)
deriving DecidableEq

/-- Neighbours of `v`: the other endpoint of every edge incident to `v`. -/
def Graph.neighbors (g : Graph) (v : Nat) : List Nat :=
  g.edges.filterMap (fun e => if e.1 = v then some e.2 else none) ++
  g.edges.filterMap (fun e => if e.2 = v then some e.1 else none)

/-- Breadth-first search with explicit fuel: pop the queue head, and if it is
unvisited mark it visited and enqueue its neighbours. -/
def bfs (g : Graph) : Nat → List Nat → List Nat → List Nat
  | 0, _, visited => visited
  | _ + 1, [], visited => visited
  | fuel + 1, x :: queue, visited =>
    if x ∈ visited then bfs g fuel queue visited
    else bfs g fuel (queue ++ g.neighbors x) (visited ++ [x])

/-- The connected component of `v`: breadth-first search from `v` with enough
fuel to drain every possible queue entry. -/
def nodeComponent (g : Graph) (v : Nat) : List Nat :=
  bfs g ((g.nodes.length + 1) * (2 * g.edges.length + 1) + 1) [v] []

/-- One step of the component scan: a node already inside an earlier component
is skipped, any other node contributes the component found from it. -/
def ccStep (g : Graph) (p : List (List Nat) × List Nat) (v : Nat) :
    List (List Nat) × List Nat :=
  if v ∈ p.2 then p else (p.1 ++ [nodeComponent g v], p.2 ++ nodeComponent g v)

/-- `list(nx.connected_components(G))` (source line 37): scan `G.nodes` in
order; every node not yet covered starts a breadth-first search that yields
one component. -/
def connectedComponents (g : Graph) : List (List Nat) :=
  (g.nodes.foldl (ccStep g) ([], [])).1

/-- `G.subgraph(c).copy()` (source line 41): the subgraph induced by the node
set `c`, as an independent value. -/
def Graph.subgraph (g : Graph) (c : List Nat) : Graph :=
  ⟨g.nodes.filter (fun v => decide (v ∈ c)),
   g.edges.filter (fun e => decide (e.1 ∈ c) && decide (e.2 ∈ c))⟩

/-- `largest_connected_component` (source lines 34-42): list the connected
components, pick the one of maximal size with `max(components, key=len)`, and
return the induced subgraph as a copy.  `max` raises on an empty component
list (the empty graph); that failure is the `none` case. -/
def largest_connected_component (g : Graph) : Option Graph :=
  match pyMax List.length (connectedComponents g) with
  | none => none
  | some c => some (g.subgraph c)

/-! ### Geometry model -/

/-- A constituent polygon of a city boundary; only its area and an identifying
tag are relevant to the script's own logic. -/
structure CPoly where
  pid : Nat
  area : ℚ
deriving DecidableEq

/-- A shapely geometry as far as the script inspects it: `geom_type` is
either `Polygon` or `MultiPolygon` with a list of constituents. -/
inductive Geom where
  | poly (p : CPoly)
  | multiPoly (ps : List CPoly)
deriving DecidableEq

/-- `simplify_tolerance = 0.01` (source line 16). -/
def simplify_tolerance : ℚ := 1 / 100

/-- `get_city_polygon` (source lines 26-32): on a multi-polygon take the
constituent of maximal area with `max(geom.geoms, key=lambda g: g.area)`;
then, when the tolerance is non-zero (Python truthiness), apply shapely's
`geom.simplify(tolerance, preserve_topology=True)`, here an oracle argument
`simplify : polygon → tolerance → preserve_topology → polygon`.  `max` on an
empty multi-polygon raises; that failure is the `none` case. -/
def get_city_polygon (simplify : CPoly → ℚ → Bool → CPoly) (geom : Geom)
    (tolerance : ℚ) : Option CPoly :=
  let g? : Option CPoly :=
    match geom with
    | .multiPoly ps => pyMax CPoly.area ps
    | .poly p => some p
  match g? with
  | none => none
  | some g => some (if tolerance ≠ 0 then simplify g tolerance true else g)

/-! ### The script state: files, CSV log, main loop -/

/-- One data row of the CSV log; `nodes`/`edges` are `none` when the Python
record holds `None`, which the CSV writer emits as an empty field. -/
structure Row where
  city : String
  status : String
  nodes : Option Nat
  edges : Option Nat
  area_km2 : ℚ
deriving DecidableEq

/-- `header = ["city", "status", "nodes", "edges", "area_km2"]` (line 48). -/
def header : List String := ["city", "status", "nodes", "edges", "area_km2"]

/-- A line of the CSV file: the header line or a data row. -/
inductive CsvEntry where
  | headerLine (cols : List String)
  | row (r : Row)
deriving DecidableEq

/-- The data rows of a CSV file, in order. -/
def rowsOf (entries : List CsvEntry) : List Row :=
  entries.filterMap (fun e =>
    match e with
    | .headerLine _ => none
    | .row r => some r)

/-- The rows recorded for one city name. -/
def rowsFor (nm : String) (entries : List CsvEntry) : List Row :=
  (rowsOf entries).filter (fun r => decide (r.city = nm))

/-- `set(existing_records.loc[existing_records["status"] == "success",
"city"])` (line 53): the cities of the rows whose status is exactly
`success`. -/
def downloaded_cities (entries : List CsvEntry) : List String :=
  ((rowsOf entries).filter (fun r => decide (r.status = "success"))).map Row.city

/-- One city record of the boundary file: the (stripped) `name` column and
the area in m² of its metric-projected geometry (line 68). -/
structure City where
  name : String
  projArea : ℚ
deriving DecidableEq

/-- `save_path = os.path.join(save_dir, f"{name}.graphml")` (line 62), with
the fixed directory prefix dropped. -/
def savePathOf (c : City) : String := c.name ++ ".graphml"

/-- The mutable world the script touches: the graphml files on disk (path
and saved graph) and the CSV log (whether the file exists, and its lines). -/
structure SysState where
  files : List (String × Graph)
  csvExists : Bool
  csv : List CsvEntry
deriving DecidableEq

/-- Observable actions of one loop iteration: entering the guarded download
block for a city, and the 3-second sleep of line 118. -/
inductive Event where
  | download (city : String)
  | sleep
deriving DecidableEq

/-- The CSV append (lines 110-116): open in append mode, write the header
first when the file is empty (`f.tell() == 0`), then the row. -/
def appendCsv (entries : List CsvEntry) (r : Row) : List CsvEntry :=
  match entries with
  | [] => [CsvEntry.headerLine header, CsvEntry.row r]
  | _ => entries ++ [CsvEntry.row r]

/-- The message of the `ValueError` CPython raises for `max(())`. -/
def emptySeqMsg : String := "max() arg is an empty sequence"

/-- The body of the `try` (lines 73-98) together with the `except` record
(lines 100-108).  The polygon derivation and the download up to
`to_undirected` are the oracle `net`; an exception anywhere in them is its
`error` case, carrying `str(e)`.  The component reduction, the save and the
record construction are the script's own code.  Returns the new file system
and the record to append. -/
def tryBlock (net : City → Except String Graph) (c : City) (area_km2 : ℚ)
    (files : List (String × Graph)) : List (String × Graph) × Row :=
  match net c with
  | .error e => (files, ⟨c.name, "failed: " ++ e, none, none, area_km2⟩)
  | .ok g =>
    match largest_connected_component g with
    | none =>
      (files, ⟨c.name, "failed: " ++ emptySeqMsg, none, none, area_km2⟩)
    | some gm =>
      (files ++ [(savePathOf c, gm)],
       ⟨c.name, "success", some gm.nodes.length, some gm.edges.length, area_km2⟩)

/-- One iteration of the main loop (lines 59-118) for city `c`: skip when
the name is in the startup skip-set or the graphml file already exists
(lines 64-66; the `continue` also bypasses the sleep of line 118); otherwise
compute the area, run the guarded body, append the record, and sleep. -/
def processCity (net : City → Except String Graph) (ds : List String)
    (c : City) (s : SysState) : SysState × List Event :=
  if c.name ∈ ds ∨ savePathOf c ∈ s.files.map Prod.fst then (s, [])
  else
    let fr := tryBlock net c (c.projArea / 1000000) s.files
    (⟨fr.1, true, appendCsv s.csv fr.2⟩, [Event.download c.name, Event.sleep])

/-- The main loop over the remaining cities. -/
def runLoop (net : City → Except String Graph) (ds : List String) :
    List City → SysState → SysState × List Event
  | [], s => (s, [])
  | c :: cs, s =>
    let p := processCity net ds c s
    let q := runLoop net ds cs p.1
    (q.1, p.2 ++ q.2)

/-- The startup skip-set (lines 51-56): the successful cities of the CSV
when the CSV file exists, empty otherwise. -/
def startupSkips (s : SysState) : List String :=
  if s.csvExists then downloaded_cities s.csv else []

/-- One whole run of the script from state `s`: build the skip-set once at
startup, then run the loop over all cities. -/
def runScript (net : City → Except String Graph) (cities : List City)
    (s : SysState) : SysState × List Event :=
  runLoop net (startupSkips s) cities s

/-! ### Concrete instances used below -/

/-- A ten-node graph whose connected components have sizes 3, 5 and 2. -/
def gThreeFiveTwo : Graph :=
  ⟨[0, 1, 2, 3, 4, 5, 6, 7, 8, 9],
   [(0, 1), (1, 2), (3, 4), (4, 5), (5, 6), (6, 7), (8, 9)]⟩

/-- A two-node, one-edge graph. -/
def gPath2 : Graph := ⟨[0, 1], [(0, 1)]⟩

/-- A single node with no incident edge. -/
def gLone : Graph := ⟨[0], []⟩

/-- A sample city of projected area 2·10⁶ m². -/
def cityX : City := ⟨"X", 2000000⟩

/-- The empty starting state: no graphml files, no CSV file. -/
def s0 : SysState := ⟨[], false, []⟩

/-- An oracle whose download always fails. -/
def netFail : City → Except String Graph := fun _ => .error ("boom")

/-- An oracle that always returns the two-node path. -/
def netPath2 : City → Except String Graph := fun _ => .ok gPath2

/-- An oracle that always returns the isolated node. -/
def netLone : City → Except String Graph := fun _ => .ok gLone

/-- A state whose CSV already records city `X` as a success. -/
def sSuccessX : SysState :=
  ⟨[], true, [CsvEntry.headerLine header,
              CsvEntry.row ⟨"X", "success", some 5, some 4, 2⟩]⟩

/-- A state whose CSV records a failure for city `X` and holds no files. -/
def sFailedX : SysState :=
  ⟨[], true, [CsvEntry.headerLine header,
              CsvEntry.row ⟨"X", "failed: boom", none, none, 2⟩]⟩

/-- A state with `X.graphml` already on disk and no CSV file. -/
def sFileX : SysState := ⟨[("X.graphml", gPath2)], false, []⟩

/-- Three polygons of areas 10, 50 and 2. -/
def psTenFiftyTwo : List CPoly := [⟨0, 10⟩, ⟨1, 50⟩, ⟨2, 2⟩]

/-- A sample simplify oracle: tags the polygon it is given. -/
def simplifyTag : CPoly → ℚ → Bool → CPoly := fun p _ _ => ⟨p.pid + 100, p.area⟩

/-- The rows recorded for one city name with status `success`. -/
def successRowsFor (nm : String) (entries : List CsvEntry) : List Row :=
  (rowsFor nm entries).filter (fun r => decide (r.status = "success"))

/-- The name of the sample city. -/
def nmX : String := "X"

/-- A second sample city. -/
def cityY : City := ⟨"Y", 3000000⟩

/-! ### Basic facts about `pyMax`, `bfs` and the component scan -/

theorem pyMax_foldl_spec {α β : Type} (key : α → β) [LinearOrder β]
    (xs : List α) (b : α) :
    (xs.foldl (fun best q => if key best < key q then q else best) b = b ∨
      xs.foldl (fun best q => if key best < key q then q else best) b ∈ xs) ∧
    key b ≤ key (xs.foldl (fun best q => if key best < key q then q else best) b) ∧
    ∀ y ∈ xs, key y ≤ key (xs.foldl (fun best q => if key best < key q then q else best) b) := by
  induction xs generalizing b with
  | nil => simp
  | cons x xs ih =>
    simp only [List.foldl_cons, List.mem_cons]
    by_cases h : key b < key x
    · simp only [if_pos h]
      obtain ⟨hmem, hle, hall⟩ := ih x
      refine ⟨?_, le_of_lt (lt_of_lt_of_le h hle), ?_⟩
      · rcases hmem with h1 | h1
        · exact Or.inr (Or.inl h1)
        · exact Or.inr (Or.inr h1)
      · intro y hy
        rcases hy with rfl | hy
        · exact hle
        · exact hall y hy
    · simp only [if_neg h]
      obtain ⟨hmem, hle, hall⟩ := ih b
      refine ⟨?_, hle, ?_⟩
      · rcases hmem with h1 | h1
        · exact Or.inl h1
        · exact Or.inr (Or.inr h1)
      · intro y hy
        rcases hy with rfl | hy
        · exact le_trans (le_of_not_lt h) hle
        · exact hall y hy

theorem pyMax_spec {α β : Type} (key : α → β) [LinearOrder β]
    (l : List α) (m : α) (h : pyMax key l = some m) :
    m ∈ l ∧ ∀ y ∈ l, key y ≤ key m := by
  cases l with
  | nil => simp [pyMax] at h
  | cons x xs =>
    simp only [pyMax, Option.some.injEq] at h
    obtain ⟨hmem, hle, hall⟩ := pyMax_foldl_spec key xs x
    subst h
    constructor
    · rcases hmem with h1 | h1
      · rw [h1]; exact List.mem_cons_self x xs
      · exact List.mem_cons_of_mem x h1
    · intro y hy
      rw [List.mem_cons] at hy
      rcases hy with rfl | hy
      · exact hle
      · exact hall y hy

theorem bfs_visited_subset (g : Graph) (fuel : Nat) (q visited : List Nat) :
    visited ⊆ bfs g fuel q visited := by
  induction fuel generalizing q visited with
  | zero => simp [bfs]
  | succ fuel ih =>
    cases q with
    | nil => simp [bfs]
    | cons x queue =>
      by_cases hx : x ∈ visited
      · simpa [bfs, hx] using ih queue visited
      · simp only [bfs, if_neg hx]
        intro a ha
        exact ih (queue ++ g.neighbors x) (visited ++ [x])
          (List.mem_append_left _ ha)

theorem mem_nodeComponent_self (g : Graph) (v : Nat) :
    v ∈ nodeComponent g v := by
  unfold nodeComponent
  rw [show (g.nodes.length + 1) * (2 * g.edges.length + 1) + 1 =
      ((g.nodes.length + 1) * (2 * g.edges.length + 1)) + 1 from rfl]
  simp only [bfs, List.not_mem_nil, if_neg]
  exact bfs_visited_subset g _ _ _ (by simp)

theorem ccStep_fst_ne_nil (g : Graph) (p : List (List Nat) × List Nat)
    (v : Nat) (h : p.1 ≠ []) : (ccStep g p v).1 ≠ [] := by
  unfold ccStep
  split
  · exact h
  · simp

theorem foldl_ccStep_fst_ne_nil (g : Graph) (l : List Nat)
    (p : List (List Nat) × List Nat) (h : p.1 ≠ []) :
    (l.foldl (ccStep g) p).1 ≠ [] := by
  induction l generalizing p with
  | nil => simpa using h
  | cons x xs ih =>
    simp only [List.foldl_cons]
    exact ih _ (ccStep_fst_ne_nil g p x h)

theorem connectedComponents_ne_nil (g : Graph) (h : g.nodes ≠ []) :
    connectedComponents g ≠ [] := by
  unfold connectedComponents
  cases hn : g.nodes with
  | nil => exact absurd hn h
  | cons v vs =>
    simp only [List.foldl_cons]
    apply foldl_ccStep_fst_ne_nil
    simp [ccStep]

theorem connectedComponents_eq_nil (g : Graph) (h : g.nodes = []) :
    connectedComponents g = [] := by
  unfold connectedComponents
  rw [h]
  rfl

theorem mem_foldl_ccStep (g : Graph) (l : List Nat)
    (p : List (List Nat) × List Nat) (comp : List Nat)
    (h : comp ∈ (l.foldl (ccStep g) p).1) :
    comp ∈ p.1 ∨ ∃ v ∈ l, comp = nodeComponent g v := by
  induction l generalizing p with
  | nil => exact Or.inl (by simpa using h)
  | cons x xs ih =>
    simp only [List.foldl_cons] at h
    rcases ih (ccStep g p x) h with h1 | h1
    · unfold ccStep at h1
      split at h1
      · exact Or.inl h1
      · simp only [List.mem_append, List.mem_singleton] at h1
        rcases h1 with h1 | h1
        · exact Or.inl h1
        · exact Or.inr ⟨x, List.mem_cons_self x xs, h1⟩
    · obtain ⟨v, hv, hcomp⟩ := h1
      exact Or.inr ⟨v, List.mem_cons_of_mem x hv, hcomp⟩

theorem mem_connectedComponents (g : Graph) (comp : List Nat)
    (h : comp ∈ connectedComponents g) :
    ∃ v ∈ g.nodes, comp = nodeComponent g v := by
  unfold connectedComponents at h
  rcases mem_foldl_ccStep g g.nodes ([], []) comp h with h1 | h1
  · simp at h1
  · exact h1

theorem subgraph_nodes_pos (g : Graph) (comp : List Nat)
    (h : comp ∈ connectedComponents g) :
    0 < (g.subgraph comp).nodes.length := by
  obtain ⟨v, hv, rfl⟩ := mem_connectedComponents g comp h
  have hvc : v ∈ nodeComponent g v := mem_nodeComponent_self g v
  have : v ∈ (g.subgraph (nodeComponent g v)).nodes := by
    simp only [Graph.subgraph, List.mem_filter, decide_eq_true_eq]
    exact ⟨hv, hvc⟩
  exact List.length_pos.mpr (List.ne_nil_of_mem this)

theorem pyMax_exists_of_ne_nil {α β : Type} (key : α → β) [LinearOrder β]
    (l : List α) (h : l ≠ []) : ∃ m, pyMax key l = some m := by
  cases l with
  | nil => exact absurd rfl h
  | cons x xs => exact ⟨_, rfl⟩

theorem lcc_nodes_pos (g : Graph) (gm : Graph)
    (h : largest_connected_component g = some gm) : 0 < gm.nodes.length := by
  unfold largest_connected_component at h
  cases hp : pyMax List.length (connectedComponents g) with
  | none => rw [hp] at h; cases h
  | some comp =>
    rw [hp] at h
    obtain ⟨hmem, -⟩ := pyMax_spec List.length (connectedComponents g) comp hp
    cases h
    exact subgraph_nodes_pos g comp hmem

/-! ### The claims about the two helper functions -/

/-- C9: `largest_connected_component` is partial at the empty graph — with no
nodes the component list is empty and Python's `max` raises, so the result is
defined exactly when the graph has at least one node. -/
theorem c9_lcc_partial_on_empty (g : Graph) :
    (connectedComponents g = [] ↔ g.nodes = []) ∧
    (largest_connected_component g = none ↔ g.nodes = []) := by
  have h1 : connectedComponents g = [] ↔ g.nodes = [] := by
    constructor
    · intro h
      by_contra hn
      exact connectedComponents_ne_nil g hn h
    · exact connectedComponents_eq_nil g
  refine ⟨h1, ?_, ?_⟩
  · intro h
    unfold largest_connected_component at h
    cases hp : pyMax List.length (connectedComponents g) with
    | none =>
      cases hc : connectedComponents g with
      | nil => exact h1.mp hc
      | cons x xs => rw [hc] at hp; simp [pyMax] at hp
    | some comp => rw [hp] at h; cases h
  · intro h
    unfold largest_connected_component
    rw [connectedComponents_eq_nil g h]
    rfl

/-- C2: on any graph with at least one node,
`largest_connected_component` returns the induced subgraph (as a copy) of a
connected component of maximal node count. -/
theorem c2_lcc_returns_max_component (g : Graph) (h : g.nodes ≠ []) :
    ∃ c, c ∈ connectedComponents g ∧
      (∀ d ∈ connectedComponents g, d.length ≤ c.length) ∧
      largest_connected_component g = some (g.subgraph c) := by
  obtain ⟨m, hm⟩ :=
    pyMax_exists_of_ne_nil List.length (connectedComponents g)
      (connectedComponents_ne_nil g h)
  obtain ⟨hmem, hall⟩ := pyMax_spec List.length (connectedComponents g) m hm
  refine ⟨m, hmem, hall, ?_⟩
  unfold largest_connected_component
  rw [hm]

/-- Witness for C2 at a graph whose components have sizes 3, 5 and 2: the
extractor returns exactly the 5-node component's induced subgraph. -/
theorem c2_lcc_returns_max_component_witness :
    gThreeFiveTwo.nodes ≠ [] ∧
    connectedComponents gThreeFiveTwo = [[0, 1, 2], [3, 4, 5, 6, 7], [8, 9]] ∧
    largest_connected_component gThreeFiveTwo =
      some ⟨[3, 4, 5, 6, 7], [(3, 4), (4, 5), (5, 6), (6, 7)]⟩ ∧
    (∃ c, c ∈ connectedComponents gThreeFiveTwo ∧
      (∀ d ∈ connectedComponents gThreeFiveTwo, d.length ≤ c.length) ∧
      largest_connected_component gThreeFiveTwo = some (gThreeFiveTwo.subgraph c)) :=
  ⟨by decide, by decide, by decide,
   c2_lcc_returns_max_component gThreeFiveTwo (by decide)⟩

/-- C4: on a non-empty multi-polygon, `get_city_polygon` picks the
constituent of maximal area and returns it simplified at the fixed tolerance
with topology preservation requested. -/
theorem c4_get_city_polygon_largest_part (simplify : CPoly → ℚ → Bool → CPoly)
    (ps : List CPoly) (h : ps ≠ []) :
    ∃ p, p ∈ ps ∧ (∀ q ∈ ps, q.area ≤ p.area) ∧
      get_city_polygon simplify (Geom.multiPoly ps) simplify_tolerance =
        some (simplify p simplify_tolerance true) := by
  cases ps with
  | nil => exact absurd rfl h
  | cons x xs =>
    have hpy : pyMax CPoly.area (x :: xs) =
        some (xs.foldl (fun best q => if best.area < q.area then q else best) x) := rfl
    obtain ⟨hmem, hall⟩ := pyMax_spec CPoly.area (x :: xs) _ hpy
    have ht : simplify_tolerance ≠ 0 := by norm_num [simplify_tolerance]
    refine ⟨_, hmem, hall, ?_⟩
    simp [get_city_polygon, hpy, ht]

/-- Witness for C4 at a multi-polygon with parts of areas 10, 50 and 2: the
result is the simplified 50-area part only. -/
theorem c4_get_city_polygon_largest_part_witness :
    psTenFiftyTwo ≠ [] ∧
    get_city_polygon simplifyTag (Geom.multiPoly psTenFiftyTwo) simplify_tolerance =
      some ⟨101, 50⟩ ∧
    (∃ p, p ∈ psTenFiftyTwo ∧ (∀ q ∈ psTenFiftyTwo, q.area ≤ p.area) ∧
      get_city_polygon simplifyTag (Geom.multiPoly psTenFiftyTwo) simplify_tolerance =
        some (simplifyTag p simplify_tolerance true)) :=
  ⟨by simp [psTenFiftyTwo],
   by norm_num [get_city_polygon, pyMax, psTenFiftyTwo, simplifyTag, simplify_tolerance],
   c4_get_city_polygon_largest_part simplifyTag psTenFiftyTwo (by simp [psTenFiftyTwo])⟩

/-! ### Facts about the CSV append and one loop iteration -/

theorem rowsOf_append (a b : List CsvEntry) :
    rowsOf (a ++ b) = rowsOf a ++ rowsOf b := by
  simp [rowsOf, List.filterMap_append]

theorem rowsOf_appendCsv (entries : List CsvEntry) (r : Row) :
    rowsOf (appendCsv entries r) = rowsOf entries ++ [r] := by
  cases entries with
  | nil => rfl
  | cons e es =>
    show rowsOf ((e :: es) ++ [CsvEntry.row r]) = _
    rw [rowsOf_append]
    rfl

theorem rowsFor_appendCsv (nm : String) (entries : List CsvEntry) (r : Row) :
    rowsFor nm (appendCsv entries r) =
      rowsFor nm entries ++ if r.city = nm then [r] else [] := by
  by_cases h : r.city = nm <;>
    simp [rowsFor, rowsOf_appendCsv, List.filter_append, h]

theorem row_mem_appendCsv (entries : List CsvEntry) (rec r : Row)
    (h : CsvEntry.row r ∈ appendCsv entries rec) :
    CsvEntry.row r ∈ entries ∨ r = rec := by
  cases entries with
  | nil =>
    simp [appendCsv] at h
    exact Or.inr h
  | cons e es =>
    simp only [appendCsv] at h
    rcases List.mem_append.mp h with h | h
    · exact Or.inl h
    · simp at h
      exact Or.inr h

theorem tryBlock_snd_city (net : City → Except String Graph) (c : City)
    (a : ℚ) (files : List (String × Graph)) :
    (tryBlock net c a files).2.city = c.name := by
  cases hnc : net c with
  | error e => simp [tryBlock, hnc]
  | ok g =>
    cases hl : largest_connected_component g with
    | none => simp [tryBlock, hnc, hl]
    | some gm => simp [tryBlock, hnc, hl]

theorem tryBlock_snd_area (net : City → Except String Graph) (c : City)
    (a : ℚ) (files : List (String × Graph)) :
    (tryBlock net c a files).2.area_km2 = a := by
  cases hnc : net c with
  | error e => simp [tryBlock, hnc]
  | ok g =>
    cases hl : largest_connected_component g with
    | none => simp [tryBlock, hnc, hl]
    | some gm => simp [tryBlock, hnc, hl]

theorem tryBlock_fst_sub (net : City → Except String Graph) (c : City)
    (a : ℚ) (files : List (String × Graph)) :
    files ⊆ (tryBlock net c a files).1 := by
  cases hnc : net c with
  | error e =>
    simp only [tryBlock, hnc]
    exact fun x hx => hx
  | ok g =>
    cases hl : largest_connected_component g with
    | none =>
      simp only [tryBlock, hnc, hl]
      exact fun x hx => hx
    | some gm =>
      simp only [tryBlock, hnc, hl]
      exact List.subset_append_left _ _

theorem processCity_skip (net : City → Except String Graph) (ds : List String)
    (c : City) (s : SysState)
    (h : c.name ∈ ds ∨ savePathOf c ∈ s.files.map Prod.fst) :
    processCity net ds c s = (s, []) := by
  unfold processCity
  rw [if_pos h]

theorem processCity_not_skip (net : City → Except String Graph)
    (ds : List String) (c : City) (s : SysState)
    (h : ¬ (c.name ∈ ds ∨ savePathOf c ∈ s.files.map Prod.fst)) :
    processCity net ds c s =
      (⟨(tryBlock net c (c.projArea / 1000000) s.files).1, true,
        appendCsv s.csv (tryBlock net c (c.projArea / 1000000) s.files).2⟩,
       [Event.download c.name, Event.sleep]) := by
  unfold processCity
  rw [if_neg h]

theorem processCity_preserves (net : City → Except String Graph)
    (ds : List String) (c : City) (s : SysState) (nm : String)
    (h : nm ∈ ds ∨ nm ++ ".graphml" ∈ s.files.map Prod.fst) :
    Event.download nm ∉ (processCity net ds c s).2 ∧
    rowsFor nm (processCity net ds c s).1.csv = rowsFor nm s.csv ∧
    (nm ∈ ds ∨ nm ++ ".graphml" ∈ (processCity net ds c s).1.files.map Prod.fst) := by
  by_cases hsk : c.name ∈ ds ∨ savePathOf c ∈ s.files.map Prod.fst
  · rw [processCity_skip net ds c s hsk]
    exact ⟨by simp, rfl, h⟩
  · have hne : c.name ≠ nm := by
      rintro rfl
      rcases h with h | h
      · exact hsk (Or.inl h)
      · exact hsk (Or.inr h)
    rw [processCity_not_skip net ds c s hsk]
    refine ⟨?_, ?_, ?_⟩
    · intro hmem
      simp only [List.mem_cons, List.not_mem_nil, or_false] at hmem
      rcases hmem with hmem | hmem
      · exact hne (Event.download.inj hmem).symm
      · exact Event.noConfusion hmem
    · rw [show (⟨(tryBlock net c (c.projArea / 1000000) s.files).1, true,
          appendCsv s.csv (tryBlock net c (c.projArea / 1000000) s.files).2⟩ :
          SysState).csv =
          appendCsv s.csv (tryBlock net c (c.projArea / 1000000) s.files).2 from rfl,
        rowsFor_appendCsv, tryBlock_snd_city, if_neg hne]
      simp
    · rcases h with h | h
      · exact Or.inl h
      · exact Or.inr (List.map_subset Prod.fst
          (tryBlock_fst_sub net c (c.projArea / 1000000) s.files) h)

theorem runLoop_preserves (net : City → Except String Graph) (ds : List String)
    (cities : List City) (nm : String) :
    ∀ s : SysState, (nm ∈ ds ∨ nm ++ ".graphml" ∈ s.files.map Prod.fst) →
      Event.download nm ∉ (runLoop net ds cities s).2 ∧
      rowsFor nm (runLoop net ds cities s).1.csv = rowsFor nm s.csv := by
  induction cities with
  | nil => exact fun s _ => ⟨by simp [runLoop], rfl⟩
  | cons c cs ih =>
    intro s h
    obtain ⟨h1, h2, h3⟩ := processCity_preserves net ds c s nm h
    obtain ⟨ih1, ih2⟩ := ih (processCity net ds c s).1 h3
    constructor
    · simp only [runLoop, List.mem_append]
      rintro (hmem | hmem)
      · exact h1 hmem
      · exact ih1 hmem
    · simp only [runLoop]
      rw [ih2, h2]

/-! ### Claims about the main loop -/

/-- C1: a city marked `success` in the pre-existing CSV, or whose graphml
file already exists, is skipped entirely by a re-run: no download is
attempted for it, and its recorded rows are left exactly as they were. -/
theorem c1_resume_skips_done_cities (net : City → Except String Graph)
    (cities : List City) (s : SysState) (nm : String)
    (h : nm ∈ startupSkips s ∨ nm ++ ".graphml" ∈ s.files.map Prod.fst) :
    Event.download nm ∉ (runScript net cities s).2 ∧
    rowsFor nm (runScript net cities s).1.csv = rowsFor nm s.csv :=
  runLoop_preserves net (startupSkips s) cities nm s h

/-- Witness for C1: with `X` already recorded as a success, a re-run over the
single city `X` attempts no download and leaves its log rows unchanged. -/
theorem c1_resume_skips_done_cities_witness :
    (nmX ∈ startupSkips sSuccessX ∨
      nmX ++ ".graphml" ∈ sSuccessX.files.map Prod.fst) ∧
    Event.download nmX ∉ (runScript netFail [cityX] sSuccessX).2 ∧
    rowsFor nmX (runScript netFail [cityX] sSuccessX).1.csv =
      rowsFor nmX sSuccessX.csv :=
  ⟨Or.inl (by decide),
   (c1_resume_skips_done_cities netFail [cityX] sSuccessX nmX (Or.inl (by decide))).1,
   (c1_resume_skips_done_cities netFail [cityX] sSuccessX nmX (Or.inl (by decide))).2⟩

/-- C3: when the guarded body raises for a non-skipped city, the exception is
caught, exactly one row with status `failed: <message>` and empty node/edge
fields is appended, no graphml file is created, and the loop goes on with the
remaining cities. -/
theorem c3_failure_logged_and_loop_continues (net : City → Except String Graph)
    (ds : List String) (c : City) (s : SysState) (cs : List City) (msg : String)
    (hns : ¬ (c.name ∈ ds ∨ savePathOf c ∈ s.files.map Prod.fst))
    (hnet : net c = .error msg) :
    (processCity net ds c s).1.files = s.files ∧
    rowsOf (processCity net ds c s).1.csv =
      rowsOf s.csv ++
        [⟨c.name, "failed: " ++ msg, none, none, c.projArea / 1000000⟩] ∧
    (runLoop net ds (c :: cs) s).1 = (runLoop net ds cs (processCity net ds c s).1).1 := by
  have htb : tryBlock net c (c.projArea / 1000000) s.files =
      (s.files, ⟨c.name, "failed: " ++ msg, none, none, c.projArea / 1000000⟩) := by
    simp [tryBlock, hnet]
  refine ⟨?_, ?_, rfl⟩
  · rw [processCity_not_skip net ds c s hns, htb]
  · rw [processCity_not_skip net ds c s hns, htb]
    exact rowsOf_appendCsv s.csv _

/-- Witness for C3: a failing download for `X` appends exactly the
`failed: boom` row with empty counts, creates no file, and the loop
continues. -/
theorem c3_failure_logged_and_loop_continues_witness :
    (¬ (cityX.name ∈ ([] : List String) ∨
        savePathOf cityX ∈ s0.files.map Prod.fst)) ∧
    netFail cityX = .error ("boom") ∧
    ((processCity netFail [] cityX s0).1.files = s0.files ∧
     rowsOf (processCity netFail [] cityX s0).1.csv =
       rowsOf s0.csv ++
         [⟨cityX.name, "failed: " ++ "boom", none, none, cityX.projArea / 1000000⟩] ∧
     (runLoop netFail [] (cityX :: [cityY]) s0).1 =
       (runLoop netFail [] [cityY] (processCity netFail [] cityX s0).1).1) :=
  ⟨by decide, rfl,
   c3_failure_logged_and_loop_continues netFail [] cityX s0 [cityY] ("boom")
     (by decide) rfl⟩

/-- C8 (amended): the 3-second sleep follows every processed city, whether
its record is a success or a failure; a skipped city's iteration performs no
action at all — the `continue` of line 66 bypasses the `time.sleep(3)` of
line 118. -/
theorem c8_sleep_only_after_processed_cities (net : City → Except String Graph)
    (ds : List String) (c : City) (s : SysState) :
    (processCity net ds c s).2 =
      if c.name ∈ ds ∨ savePathOf c ∈ s.files.map Prod.fst then []
      else [Event.download c.name, Event.sleep] := by
  by_cases h : c.name ∈ ds ∨ savePathOf c ∈ s.files.map Prod.fst
  · rw [processCity_skip net ds c s h, if_pos h]
  · rw [processCity_not_skip net ds c s h, if_neg h]

/-- Counterexample to C8 as stated: a skipped city's iteration emits no
sleep.  Here `X` is already recorded as a success, the run over `[X]`
produces an empty trace, so no 3-second delay follows the skipped city. -/
theorem c8_no_sleep_for_skipped_counterexample :
    (runScript netFail [cityX] sSuccessX).2 = [] ∧
    Event.sleep ∉ (runScript netFail [cityX] sSuccessX).2 := by
  refine ⟨rfl, ?_⟩
  intro hmem
  rw [show (runScript netFail [cityX] sSuccessX).2 = [] from rfl] at hmem
  exact List.not_mem_nil _ hmem

/-- C10: every row a loop iteration appends — for a failed city as well as a
successful one — carries `area_km2` equal to the metric-projected area
divided by 10⁶, because the area is computed before the failure boundary and
used in both records. -/
theorem c10_every_row_carries_area (net : City → Except String Graph)
    (ds : List String) (c : City) (s : SysState) (r : Row)
    (h : CsvEntry.row r ∈ (processCity net ds c s).1.csv) :
    CsvEntry.row r ∈ s.csv ∨ r.area_km2 = c.projArea / 1000000 := by
  by_cases hsk : c.name ∈ ds ∨ savePathOf c ∈ s.files.map Prod.fst
  · rw [processCity_skip net ds c s hsk] at h
    exact Or.inl h
  · rw [processCity_not_skip net ds c s hsk] at h
    rcases row_mem_appendCsv s.csv _ r h with hmem | hmem
    · exact Or.inl hmem
    · refine Or.inr ?_
      rw [hmem]
      exact tryBlock_snd_area net c (c.projArea / 1000000) s.files

/-- Witness for C10: the row appended for the failing city `X` carries
`area_km2 = 2000000 / 10⁶`. -/
theorem c10_every_row_carries_area_witness :
    (CsvEntry.row ⟨nmX, "failed: " ++ "boom", none, none, cityX.projArea / 1000000⟩ ∈
      (processCity netFail [] cityX s0).1.csv) ∧
    (CsvEntry.row ⟨nmX, "failed: " ++ "boom", none, none, cityX.projArea / 1000000⟩ ∈
        s0.csv ∨
      (⟨nmX, "failed: " ++ "boom", none, none, cityX.projArea / 1000000⟩ : Row).area_km2 =
        cityX.projArea / 1000000) := by
  have hmem : CsvEntry.row
      (⟨nmX, "failed: " ++ "boom", none, none, cityX.projArea / 1000000⟩ : Row) ∈
      (processCity netFail [] cityX s0).1.csv := by
    rw [show (processCity netFail [] cityX s0).1.csv =
        [CsvEntry.headerLine header,
         CsvEntry.row ⟨nmX, "failed: " ++ "boom", none, none,
           cityX.projArea / 1000000⟩] from rfl]
    exact List.mem_cons_of_mem _ (List.mem_cons_self _ _)
  exact ⟨hmem, c10_every_row_carries_area netFail [] cityX s0 _ hmem⟩

theorem mem_downloaded_iff (entries : List CsvEntry) (nm : String) :
    nm ∈ downloaded_cities entries ↔
      ∃ r ∈ rowsOf entries, r.city = nm ∧ r.status = "success" := by
  simp only [downloaded_cities, List.mem_map, List.mem_filter, decide_eq_true_eq]
  constructor
  · rintro ⟨r, ⟨hr, hs⟩, rfl⟩
    exact ⟨r, hr, rfl, hs⟩
  · rintro ⟨r, hr, hcity, hs⟩
    exact ⟨r, ⟨hr, hs⟩, hcity⟩

/-- C7: the startup skip-set holds exactly the city names recorded with
status `success`; consequently a city with only `failed: ...` rows and no
graphml file on disk is processed again (retried) by the next invocation. -/
theorem c7_skipset_exact_and_failed_retried (net : City → Except String Graph)
    (c : City) (s : SysState) (nm : String)
    (h1 : ¬ ∃ r ∈ rowsOf s.csv, r.city = c.name ∧ r.status = "success")
    (h2 : savePathOf c ∉ s.files.map Prod.fst) :
    (nm ∈ downloaded_cities s.csv ↔
      ∃ r ∈ rowsOf s.csv, r.city = nm ∧ r.status = "success") ∧
    (processCity net (downloaded_cities s.csv) c s).2 =
      [Event.download c.name, Event.sleep] := by
  refine ⟨mem_downloaded_iff s.csv nm, ?_⟩
  have hns : ¬ (c.name ∈ downloaded_cities s.csv ∨
      savePathOf c ∈ s.files.map Prod.fst) := by
    rintro (hmem | hmem)
    · exact h1 ((mem_downloaded_iff s.csv c.name).mp hmem)
    · exact h2 hmem
  rw [processCity_not_skip net _ c s hns]

/-- Witness for C7: with only a `failed: boom` row for `X` and no file on
disk, the skip-set characterisation holds and `X`'s iteration downloads
again. -/
theorem c7_skipset_exact_and_failed_retried_witness :
    (¬ ∃ r ∈ rowsOf sFailedX.csv, r.city = cityX.name ∧ r.status = "success") ∧
    (savePathOf cityX ∉ sFailedX.files.map Prod.fst) ∧
    ((nmX ∈ downloaded_cities sFailedX.csv ↔
       ∃ r ∈ rowsOf sFailedX.csv, r.city = nmX ∧ r.status = "success") ∧
     (processCity netFail (downloaded_cities sFailedX.csv) cityX sFailedX).2 =
       [Event.download cityX.name, Event.sleep]) :=
  ⟨by decide, by decide,
   c7_skipset_exact_and_failed_retried netFail cityX sFailedX nmX
     (by decide) (by decide)⟩

/-- C6 (amended): a successful, non-skipped city appends exactly one row
with status `success`, a positive node count and an edge count both equal to
those of the saved largest connected component, writes the graphml file, and
writes the header `city,status,nodes,edges,area_km2` exactly when the CSV
file was empty.  (The claim's "positive edge count" is weakened to the exact
edge count of the saved component, which is zero when that component is a
single node — see the counterexample.) -/
theorem c6_success_record (net : City → Except String Graph) (ds : List String)
    (c : City) (s : SysState) (g gm : Graph)
    (hns : ¬ (c.name ∈ ds ∨ savePathOf c ∈ s.files.map Prod.fst))
    (hnet : net c = .ok g)
    (hlcc : largest_connected_component g = some gm) :
    processCity net ds c s =
      (⟨s.files ++ [(savePathOf c, gm)], true,
        appendCsv s.csv
          ⟨c.name, "success", some gm.nodes.length, some gm.edges.length,
           c.projArea / 1000000⟩⟩,
       [Event.download c.name, Event.sleep]) ∧
    0 < gm.nodes.length ∧
    savePathOf c ∈ (processCity net ds c s).1.files.map Prod.fst ∧
    rowsOf (processCity net ds c s).1.csv =
      rowsOf s.csv ++
        [⟨c.name, "success", some gm.nodes.length, some gm.edges.length,
          c.projArea / 1000000⟩] ∧
    (s.csv = [] →
      (processCity net ds c s).1.csv =
        [CsvEntry.headerLine header,
         CsvEntry.row ⟨c.name, "success", some gm.nodes.length,
           some gm.edges.length, c.projArea / 1000000⟩]) ∧
    (s.csv ≠ [] →
      (processCity net ds c s).1.csv =
        s.csv ++ [CsvEntry.row ⟨c.name, "success", some gm.nodes.length,
          some gm.edges.length, c.projArea / 1000000⟩]) := by
  have htb : tryBlock net c (c.projArea / 1000000) s.files =
      (s.files ++ [(savePathOf c, gm)],
       ⟨c.name, "success", some gm.nodes.length, some gm.edges.length,
        c.projArea / 1000000⟩) := by
    simp [tryBlock, hnet, hlcc]
  have hpc := processCity_not_skip net ds c s hns
  rw [htb] at hpc
  refine ⟨hpc, lcc_nodes_pos g gm hlcc, ?_, ?_, ?_, ?_⟩
  · rw [hpc]
    simp
  · rw [hpc]
    exact rowsOf_appendCsv s.csv _
  · intro hnil
    rw [hpc]
    show appendCsv s.csv _ = _
    rw [hnil]
    rfl
  · intro hne
    rw [hpc]
    show appendCsv s.csv _ = _
    cases hcsv : s.csv with
    | nil => exact absurd hcsv hne
    | cons e es => rfl

/-- Witness for C6 at a successful two-node download: one `success` row with
counts 2 and 1, the graphml file present, and the header written into the
empty CSV. -/
theorem c6_success_record_witness :
    (¬ (cityX.name ∈ ([] : List String) ∨
        savePathOf cityX ∈ s0.files.map Prod.fst)) ∧
    netPath2 cityX = .ok gPath2 ∧
    largest_connected_component gPath2 = some gPath2 ∧
    (processCity netPath2 [] cityX s0 =
      (⟨s0.files ++ [(savePathOf cityX, gPath2)], true,
        appendCsv s0.csv
          ⟨cityX.name, "success", some gPath2.nodes.length,
           some gPath2.edges.length, cityX.projArea / 1000000⟩⟩,
       [Event.download cityX.name, Event.sleep]) ∧
     0 < gPath2.nodes.length ∧
     savePathOf cityX ∈ (processCity netPath2 [] cityX s0).1.files.map Prod.fst ∧
     rowsOf (processCity netPath2 [] cityX s0).1.csv =
       rowsOf s0.csv ++
         [⟨cityX.name, "success", some gPath2.nodes.length,
           some gPath2.edges.length, cityX.projArea / 1000000⟩] ∧
     (s0.csv = [] →
       (processCity netPath2 [] cityX s0).1.csv =
         [CsvEntry.headerLine header,
          CsvEntry.row ⟨cityX.name, "success", some gPath2.nodes.length,
            some gPath2.edges.length, cityX.projArea / 1000000⟩]) ∧
     (s0.csv ≠ [] →
       (processCity netPath2 [] cityX s0).1.csv =
         s0.csv ++ [CsvEntry.row ⟨cityX.name, "success", some gPath2.nodes.length,
           some gPath2.edges.length, cityX.projArea / 1000000⟩])) :=
  ⟨by decide, rfl, by decide,
   c6_success_record netPath2 [] cityX s0 gPath2 gPath2 (by decide) rfl (by decide)⟩

/-- Counterexample to C6's "positive integer node and edge counts": when the
downloaded graph is a single isolated node, the sequence completes without
exception and the success row records an edge count of zero. -/
theorem c6_zero_edge_count_counterexample :
    rowsOf (processCity netLone [] cityX s0).1.csv =
      [⟨nmX, "success", some 1, some 0, cityX.projArea / 1000000⟩] ∧
    ¬ (∀ r ∈ rowsOf (processCity netLone [] cityX s0).1.csv,
        r.status = "success" → ∃ n, r.edges = some n ∧ 0 < n) := by
  refine ⟨rfl, ?_⟩
  intro hall
  obtain ⟨n, hn, hpos⟩ := hall
    ⟨nmX, "success", some 1, some 0, cityX.projArea / 1000000⟩
    (by
      rw [show rowsOf (processCity netLone [] cityX s0).1.csv =
          [⟨nmX, "success", some 1, some 0, cityX.projArea / 1000000⟩] from rfl]
      exact List.mem_cons_self _ _)
    rfl
  injection hn with hn2
  omega

/-! ### Counting rows across runs (for the duplicate-row claim) -/

theorem filter_singleton_len_le {α : Type} (p : α → Bool) (a : α) :
    (List.filter p [a]).length ≤ 1 := by
  cases hp : p a <;> simp [List.filter, hp]

theorem processCity_rowsFor_len (net : City → Except String Graph)
    (ds : List String) (c : City) (s : SysState) (nm : String) :
    (rowsFor nm (processCity net ds c s).1.csv).length ≤
      (rowsFor nm s.csv).length + (if c.name = nm then 1 else 0) := by
  by_cases hsk : c.name ∈ ds ∨ savePathOf c ∈ s.files.map Prod.fst
  · rw [processCity_skip net ds c s hsk]
    exact Nat.le_add_right _ _
  · rw [processCity_not_skip net ds c s hsk]
    show (rowsFor nm (appendCsv s.csv _)).length ≤ _
    rw [rowsFor_appendCsv, tryBlock_snd_city]
    by_cases h : c.name = nm <;> simp [h]

theorem processCity_successRows_len (net : City → Except String Graph)
    (ds : List String) (c : City) (s : SysState) (nm : String) :
    (successRowsFor nm (processCity net ds c s).1.csv).length ≤
      (successRowsFor nm s.csv).length + (if c.name = nm then 1 else 0) := by
  unfold successRowsFor
  by_cases hsk : c.name ∈ ds ∨ savePathOf c ∈ s.files.map Prod.fst
  · rw [processCity_skip net ds c s hsk]
    exact Nat.le_add_right _ _
  · rw [processCity_not_skip net ds c s hsk]
    show (List.filter _ (rowsFor nm (appendCsv s.csv _))).length ≤ _
    rw [rowsFor_appendCsv, tryBlock_snd_city]
    by_cases h : c.name = nm
    · rw [if_pos h, if_pos h, List.filter_append, List.length_append]
      exact Nat.add_le_add_left (filter_singleton_len_le _ _) _
    · rw [if_neg h, if_neg h, List.append_nil, Nat.add_zero]

theorem runLoop_rowsFor_len (net : City → Except String Graph)
    (ds : List String) (cs : List City) (nm : String) :
    ∀ s : SysState, (rowsFor nm (runLoop net ds cs s).1.csv).length ≤
      (rowsFor nm s.csv).length + cs.countP (fun c => decide (c.name = nm)) := by
  induction cs with
  | nil => intro s; simp [runLoop]
  | cons c cs ih =>
    intro s
    have h1 := ih (processCity net ds c s).1
    have h2 := processCity_rowsFor_len net ds c s nm
    simp only [runLoop, List.countP_cons]
    by_cases hc : c.name = nm <;> simp [hc] at h2 ⊢ <;> omega

theorem runLoop_successRows_len (net : City → Except String Graph)
    (ds : List String) (cs : List City) (nm : String) :
    ∀ s : SysState, (successRowsFor nm (runLoop net ds cs s).1.csv).length ≤
      (successRowsFor nm s.csv).length + cs.countP (fun c => decide (c.name = nm)) := by
  induction cs with
  | nil => intro s; simp [runLoop]
  | cons c cs ih =>
    intro s
    have h1 := ih (processCity net ds c s).1
    have h2 := processCity_successRows_len net ds c s nm
    simp only [runLoop, List.countP_cons]
    by_cases hc : c.name = nm <;> simp [hc] at h2 ⊢ <;> omega

theorem countP_name_le_one (cs : List City) (nm : String)
    (h : (cs.map City.name).Nodup) :
    cs.countP (fun c => decide (c.name = nm)) ≤ 1 := by
  induction cs with
  | nil => simp
  | cons c cs ih =>
    simp only [List.map_cons, List.nodup_cons] at h
    obtain ⟨hnotin, hnd⟩ := h
    simp only [List.countP_cons]
    by_cases hc : c.name = nm
    · have hz : cs.countP (fun c => decide (c.name = nm)) = 0 := by
        rw [List.countP_eq_zero]
        intro c' hc'
        simp only [decide_eq_true_eq]
        intro heq
        exact hnotin (hc ▸ heq ▸ List.mem_map_of_mem City.name hc')
      simp [hc, hz]
    · simp [hc]
      exact ih hnd

theorem processCity_csvExists (net : City → Except String Graph)
    (ds : List String) (c : City) (s : SysState)
    (h : rowsOf s.csv ≠ [] → s.csvExists = true) :
    rowsOf (processCity net ds c s).1.csv ≠ [] →
      (processCity net ds c s).1.csvExists = true := by
  by_cases hsk : c.name ∈ ds ∨ savePathOf c ∈ s.files.map Prod.fst
  · rw [processCity_skip net ds c s hsk]
    exact h
  · rw [processCity_not_skip net ds c s hsk]
    intro _
    rfl

theorem runLoop_csvExists (net : City → Except String Graph)
    (ds : List String) (cs : List City) :
    ∀ s : SysState, (rowsOf s.csv ≠ [] → s.csvExists = true) →
      rowsOf (runLoop net ds cs s).1.csv ≠ [] →
        (runLoop net ds cs s).1.csvExists = true := by
  induction cs with
  | nil => intro s h; exact h
  | cons c cs ih =>
    intro s h
    exact ih (processCity net ds c s).1 (processCity_csvExists net ds c s h)

theorem successRowsFor_eq_nil (nm : String) (entries : List CsvEntry)
    (h : ¬ ∃ r ∈ rowsOf entries, r.city = nm ∧ r.status = "success") :
    successRowsFor nm entries = [] := by
  rw [List.eq_nil_iff_forall_not_mem]
  intro r hr
  simp only [successRowsFor, rowsFor, List.mem_filter, decide_eq_true_eq] at hr
  exact h ⟨r, hr.1.1, hr.1.2, hr.2⟩

/-- C5 (amended): over cities with pairwise-distinct names, two consecutive
runs of the script from a clean state leave at most one `success` row per
city in the CSV; a city that failed in the first run is retried by the
second and may thus accumulate a second (failure) row — see the
counterexample to the claim as stated. -/
theorem c5_two_runs_at_most_one_success_row
    (net1 net2 : City → Except String Graph) (cities : List City)
    (h : (cities.map City.name).Nodup) (nm : String) :
    (successRowsFor nm
      (runScript net2 cities (runScript net1 cities s0).1).1.csv).length ≤ 1 := by
  have hcount := countP_name_le_one cities nm h
  have h1 : (rowsFor nm (runScript net1 cities s0).1.csv).length ≤
      cities.countP (fun c => decide (c.name = nm)) := by
    have := runLoop_rowsFor_len net1 (startupSkips s0) cities nm s0
    simpa [rowsFor, rowsOf, s0] using this
  by_cases hex : ∃ r ∈ rowsOf (runScript net1 cities s0).1.csv,
      r.city = nm ∧ r.status = "success"
  · obtain ⟨r, hr, hcity, hstat⟩ := hex
    have hdl : nm ∈ downloaded_cities (runScript net1 cities s0).1.csv :=
      (mem_downloaded_iff _ _).mpr ⟨r, hr, hcity, hstat⟩
    have hexists : (runScript net1 cities s0).1.csvExists = true := by
      apply runLoop_csvExists net1 (startupSkips s0) cities s0
        (fun h' => absurd rfl h')
      exact List.ne_nil_of_mem hr
    have hskips : nm ∈ startupSkips (runScript net1 cities s0).1 := by
      unfold startupSkips
      rw [hexists]
      simpa using hdl
    have hpres := runLoop_preserves net2
      (startupSkips (runScript net1 cities s0).1) cities nm
      (runScript net1 cities s0).1 (Or.inl hskips)
    have heq : successRowsFor nm
        (runScript net2 cities (runScript net1 cities s0).1).1.csv =
        successRowsFor nm (runScript net1 cities s0).1.csv := by
      unfold successRowsFor
      rw [show rowsFor nm
          (runScript net2 cities (runScript net1 cities s0).1).1.csv =
          rowsFor nm (runScript net1 cities s0).1.csv from hpres.2]
    rw [heq]
    exact le_trans (le_trans (List.length_filter_le _ _) h1) hcount
  · have hnil : successRowsFor nm (runScript net1 cities s0).1.csv = [] :=
      successRowsFor_eq_nil nm _ hex
    have h2 := runLoop_successRows_len net2
      (startupSkips (runScript net1 cities s0).1) cities nm
      (runScript net1 cities s0).1
    rw [hnil] at h2
    simp only [List.length_nil, Nat.zero_add] at h2
    exact le_trans h2 hcount

/-- Witness for C5 (amended) on the single retried city `X`. -/
theorem c5_two_runs_at_most_one_success_row_witness :
    (([cityX].map City.name).Nodup) ∧
    (successRowsFor nmX
      (runScript netFail [cityX] (runScript netFail [cityX] s0).1).1.csv).length ≤ 1 :=
  ⟨by decide,
   c5_two_runs_at_most_one_success_row netFail netFail [cityX] (by decide) nmX⟩

/-- Counterexample to C5 as stated: a city that fails in the first run is
retried by the second, so after two runs its name occurs on two CSV rows —
more than the claimed "at most one row for each city name". -/
theorem c5_duplicate_rows_counterexample :
    (rowsFor nmX
      (runScript netFail [cityX] (runScript netFail [cityX] s0).1).1.csv).length = 2 ∧
    ¬ (rowsFor nmX
      (runScript netFail [cityX] (runScript netFail [cityX] s0).1).1.csv).length ≤ 1 := by
  refine ⟨rfl, ?_⟩
  intro hle
  rw [show (rowsFor nmX
      (runScript netFail [cityX] (runScript netFail [cityX] s0).1).1.csv).length = 2
    from rfl] at hle
  omega
